import Mathlib

/-!
Verification development for the Smilei diagnostics field reader
(src/fields/loader.py, class FastFieldReader).

The HDF5 container is modelled shallowly: a file holds an optional "data"
group, which is a list of named timestep groups; each timestep group is a
list of named datasets; a dataset has a shape and a total value function
from (integer) multi-indices to real numbers.  Machine floats are modelled
as real numbers (for field data and angles) and rationals (for grid
metadata and timestep inputs).  The trigonometric primitives used by the
mode reconstruction are a parameter of the embedding (a Trig record),
instantiated with Mathlib real cosine and sine in the theorems; this keeps
every definition executable.
-/

namespace SmileiDiag

/-- Trigonometric primitives used by the cylindrical mode reconstruction.
Instantiated with Real.cos and Real.sin in the theorems. -/
structure Trig where
  cos : ℝ → ℝ
  sin : ℝ → ℝ

/-- A named HDF5 dataset: on-disk shape plus a total value function on
integer multi-indices, and the two optional grid attributes read at
construction time (gridGlobalOffset, gridSpacing). -/
structure Dataset where
  shape : List ℕ
  vals : List ℤ → ℝ
  gridGlobalOffset : Option (List ℚ) := none
  gridSpacing : Option (List ℚ) := none

/-- A timestep group: association list from dataset name to dataset. -/
abbrev Item := List (String × Dataset)

/-- An HDF5 file handle content: the optional top-level "data" group,
holding one child group per timestep, keyed by the group name
(a zero-padded numeral in well-formed files). -/
structure HFile where
  data : Option (List (String × Item))

/-- One entry of a caller-supplied selection: a Python slice (any field
may be None) or a plain integer index. -/
inductive SelEntry where
  | slc (start stop step : Option ℤ)
  | idx (i : ℤ)
deriving DecidableEq

/-- The subset argument of get_field_at_time: spatial slicing entries keyed
by dimension index, plus the optional "theta" angle key (separated out by
the source before slicing). -/
structure Subset where
  spatial : List (ℕ × SelEntry)
  theta : Option ℝ

/-- The timestep argument: either numerically interpretable, with rational
value q (the result of Python float conversion), or not interpretable. -/
inductive TimeInput where
  | num (q : ℚ)
  | invalid

/-- Errors raised by get_field_at_time.  The source raises ValueError with
distinct messages; the spec taxonomy names them InvalidTimestep and
FieldNotFound.  internalErr covers failures that are neither (argmin of an
empty sequence, unreachable dictionary misses). -/
inductive FieldError where
  | invalidTimestep
  | fieldNotFound (f : String)
  | internalErr (msg : String)
deriving DecidableEq

/-- The ndarray returned by get_field_at_time: buffer shape plus a value
function on multi-indices. -/
structure FieldResult where
  shape : List ℕ
  vals : List ℤ → ℝ

/-- The reader state built by FastFieldReader.__init__. -/
structure Reader where
  data_items : List (ℤ × Item)
  timesteps : List ℤ
  available_fields : List String
  data_shape : List ℕ
  offset : List ℚ
  spacing : List ℚ
  axes_coords : List (List ℚ)
  is_cylindrical : Bool
  modes : List (String × List ℤ)
  handleOpen : Bool

/-- Python int(float(x)) truncates toward zero. -/
def pyTrunc (q : ℚ) : ℤ := if 0 ≤ q then ⌊q⌋ else ⌈q⌉

/-- Lines 117-120: convert the requested timestep to an integer; None
models the raised ValueError (InvalidTimestep). -/
def parseTimestep : TimeInput → Option ℤ
  | .num q => some (pyTrunc q)
  | .invalid => none

/-- The left fold computing the first key of minimal absolute distance to
t, starting from candidate b. -/
def argminFold (t b : ℤ) (ks : List ℤ) : ℤ :=
  ks.foldl (fun best k2 => if |k2 - t| < |best - t| then k2 else best) b

/-- Lines 124-125: numpy argmin of absolute distances over the available
keys, returning the key at the first index attaining the minimum
(numpy argmin returns the first occurrence of the minimum). -/
def argminAbs (t : ℤ) : List ℤ → Option ℤ
  | [] => none
  | k :: ks => some (argminFold t k ks)

/-- Lines 122-126: if the converted timestep is not a stored key, replace
it by the stored key nearest in absolute distance. -/
def resolveTimestep (r : Reader) (t0 : ℤ) : Option ℤ :=
  if (r.data_items.lookup t0).isSome then some t0
  else argminAbs t0 (r.data_items.map Prod.fst)

/-- Python `x or 1` applied to an optional slice step (None and 0 both
give 1), line 162 and line 177. -/
def pyOr1 : Option ℤ → ℤ
  | none => 1
  | some v => if v = 0 then 1 else v

/-- Python `x or 0` applied to an optional slice start (None and 0 both
give 0), line 175. -/
def pyOr0 : Option ℤ → ℤ
  | none => 0
  | some v => v

/-- Lines 158-165: the real-component transform of the interleaved-dimension
selection entry: start and stop doubled (None preserved), step `or 1` then
doubled; an integer index is doubled. -/
def realTransformEntry : SelEntry → SelEntry
  | .slc a b s => .slc (a.map (fun v => v * 2)) (b.map (fun v => v * 2)) (some (pyOr1 s * 2))
  | .idx k => .idx (k * 2)

/-- Lines 173-180: the imaginary-component transform: start `or 0` doubled
plus one, stop doubled plus one (None preserved), step `or 1` then doubled;
an integer index is doubled plus one. -/
def imagTransformEntry : SelEntry → SelEntry
  | .slc a b s => .slc (some (pyOr0 a * 2 + 1)) (b.map (fun v => v * 2 + 1)) (some (pyOr1 s * 2))
  | .idx k => .idx (k * 2 + 1)

/-- Lines 157-166 and 172-181: the transform is applied to entry 1 of the
selection tuple only when the selection has more than one entry. -/
def transformSel (f : SelEntry → SelEntry) : List SelEntry → List SelEntry
  | s0 :: s1 :: rest => s0 :: f s1 :: rest
  | l => l

/-- Mapping an output index along one selection entry to the on-disk index
it reads: for a slice, start (default 0) plus index times step (default 1);
for an integer entry the fixed coordinate.  This models the h5py strided
selection for non-negative starts and positive steps, the regime the
claims quantify over. -/
def applyEntry : SelEntry → ℤ → ℤ
  | .slc a _ s, i => a.getD 0 + i * s.getD 1
  | .idx k, _ => k

/-- A strided read of a dataset under a selection: the value at output
index out is the on-disk value at the per-dimension mapped index
(read_direct with source_sel, copy-out semantics). -/
def read_direct (d : Dataset) (sel : List SelEntry) : List ℤ → ℝ :=
  fun out => d.vals (List.zipWith applyEntry sel out)

/-- f-string f"{field}_mode_{mode}" for an integer mode. -/
def modeName (field : String) (m : ℤ) : String := field ++ "_mode_" ++ toString m

/-- Lines 153-184, loop body for one mode: skip the mode if its dataset is
absent; otherwise accumulate cos(mode*theta) times the real (even
interleaved) strided read and, for mode > 0, sin(mode*theta) times the
imaginary (odd interleaved) strided read. -/
def modeStep (trig : Trig) (θ : ℝ) (item : Item) (field : String)
    (sel : List SelEntry) (acc : List ℤ → ℝ) (m : ℤ) : List ℤ → ℝ :=
  match item.lookup (modeName field m) with
  | none => acc
  | some dm =>
    let realD := read_direct dm (transformSel realTransformEntry sel)
    let acc1 := fun out => acc out + trig.cos ((m : ℝ) * θ) * realD out
    if 0 < m then
      let imagD := read_direct dm (transformSel imagTransformEntry sel)
      fun out => acc1 out + trig.sin ((m : ℝ) * θ) * imagD out
    else acc1

/-- Lines 104-195: get_field_at_time.  Resolve the timestep, split theta
from the subset, build the per-dimension selection, then: branch A (plain
dataset), branch C (mode reconstruction with theta), branch B (mode 0
without theta), or FieldNotFound. -/
def get_field_at_time (trig : Trig) (r : Reader) (field : String)
    (timestep : TimeInput) (subset : Option Subset) : Except FieldError FieldResult :=
  match parseTimestep timestep with
  | none => .error .invalidTimestep
  | some t0 =>
    match resolveTimestep r t0 with
    | none => .error (.internalErr "argmin of an empty sequence")
    | some t_val =>
      match r.data_items.lookup t_val with
      | none => .error (.internalErr "key error")
      | some item =>
        let theta : Option ℝ := match subset with
          | none => none
          | some su => su.theta
        let spatial : List (ℕ × SelEntry) := match subset with
          | none => []
          | some su => su.spatial
        let selection : List SelEntry := (List.range r.data_shape.length).map
          (fun i => (spatial.lookup i).getD (.slc none none none))
        match item.lookup field with
        | some ds => .ok ⟨ds.shape, read_direct ds selection⟩
        | none =>
          if r.is_cylindrical = true then
            match r.modes.lookup field with
            | some ms =>
              match theta with
              | some θ =>
                match ms with
                | [] => .error (.internalErr "list index out of range")
                | m0 :: _ =>
                  match item.lookup (modeName field m0) with
                  | none => .error (.fieldNotFound field)
                  | some sample =>
                    let D := ms.foldl (modeStep trig θ item field selection) (fun _ => 0)
                    .ok ⟨sample.shape, D⟩
              | none =>
                match item.lookup (modeName field 0) with
                | none => .error (.fieldNotFound field)
                | some d0 => .ok ⟨d0.shape, read_direct d0 selection⟩
            | none => .error (.fieldNotFound field)
          else .error (.fieldNotFound field)

/-! Construction (lines 22-72), close (lines 74-82), timesteps (lines
84-91) and axes (lines 93-102). -/

/-- Character scan keeping everything after the last slash. -/
def basenameAux : List Char → List Char → List Char
  | [], acc => acc.reverse
  | c :: cs, acc => if c = '/' then basenameAux cs [] else basenameAux cs (c :: acc)

/-- os.path.basename: the part of a name after the last slash. -/
def basename (s : String) : String := String.mk (basenameAux s.data [])

/-- A decimal digit character to its value, None otherwise. -/
def digitVal (c : Char) : Option ℕ :=
  if 48 ≤ c.toNat ∧ c.toNat ≤ 57 then some (c.toNat - 48) else none

/-- Accumulate decimal digits; fails on any non-digit character. -/
def parseDigits : List Char → ℕ → Option ℕ
  | [], acc => some acc
  | c :: cs, acc =>
    match digitVal c with
    | none => none
    | some d => parseDigits cs (acc * 10 + d)

/-- Python int(string): optional sign then at least one decimal digit
(leading zeros allowed, as in the zero-padded group names). -/
def pyIntChars : List Char → Option ℤ
  | [] => none
  | '-' :: cs => if cs = [] then none else (parseDigits cs 0).map (fun n => -(n : ℤ))
  | '+' :: cs => if cs = [] then none else (parseDigits cs 0).map (fun n => (n : ℤ))
  | cs => (parseDigits cs 0).map (fun n => (n : ℤ))

/-- Python int applied to a string, modelling int(basename) parsing. -/
def pyInt (s : String) : Option ℤ := pyIntChars s.data

/-- Python `"_mode_" in field`. -/
def containsModeSep (s : String) : Bool := (s.splitOn "_mode_").length > 1

/-- field.rsplit("_mode_", 1)[0]: everything before the last separator. -/
def modeBase (s : String) : String :=
  String.intercalate "_mode_" ((s.splitOn "_mode_").dropLast)

/-- field.rsplit("_mode_", 1)[1]: everything after the last separator. -/
def modeSuffix (s : String) : String :=
  match (s.splitOn "_mode_").getLast? with
  | some t => t
  | none => s

/-- Stable insertion of an element into a list sorted ascending by an
integer key; a new element goes after existing elements of equal key. -/
def insertByKey {α : Type} (key : α → ℤ) (p : α) : List α → List α
  | [] => [p]
  | q :: qs => if key p < key q then p :: q :: qs else q :: insertByKey key p qs

/-- Stable ascending sort by an integer key (models Python sorted and the
dict(sorted(...)) on line 40, and list.sort on line 68). -/
def sortByKey {α : Type} (key : α → ℤ) (l : List α) : List α :=
  l.foldl (fun acc p => insertByKey key p acc) []

/-- Python dict built by repeated assignment: on duplicate keys the last
value wins (line 37 builds data_items this way). -/
def dedupLast (l : List (ℤ × Item)) : List (ℤ × Item) :=
  l.foldl (fun acc p => acc.filter (fun q => q.1 ≠ p.1) ++ [p]) []

/-- Lines 84-91, _get_timesteps: parse every group name to an integer; any
exception is caught internally and an empty array returned. -/
def get_timesteps (f : HFile) : List ℤ :=
  match f.data with
  | none => []
  | some gs =>
    match gs.mapM (fun g => pyInt (basename g.1)) with
    | some ts => ts
    | none => []

/-- numpy.arange over exact rationals: count is the ceiling of
(stop - start) / step clamped at zero, element k is start + k * step. -/
def pyArange (start stop step : ℚ) : List ℚ :=
  (List.range (Int.toNat ⌈(stop - start) / step⌉)).map (fun (k : ℕ) => start + (k : ℚ) * step)

/-- Lines 93-102, get_axes computed from shape, offset and spacing:
one arange per dimension from offset[i] to offset[i] + (shape[i] - 0.5) *
spacing[i] with step spacing[i]. -/
def computeAxes (shape : List ℕ) (offset spacing : List ℚ) : List (List ℚ) :=
  (List.range shape.length).map (fun i =>
    pyArange (offset.getD i 0)
      (offset.getD i 0 + ((shape.getD i 0 : ℚ) - 1/2) * spacing.getD i 0)
      (spacing.getD i 0))

/-- get_axes as a method of the reader (pure function of cached metadata). -/
def get_axes (r : Reader) : List (List ℚ) :=
  computeAxes r.data_shape r.offset r.spacing

/-- Lines 61-68: group every mode-carrying field name by base name, parse
the mode suffix as an integer (propagating the parse failure the source
would raise), then sort each mode list ascending. -/
def buildModes (fields : List String) : Except String (List (String × List ℤ)) := do
  let pairs ← (fields.filter containsModeSep).mapM (fun f =>
    match pyInt (modeSuffix f) with
    | none => Except.error ("invalid literal for int with base 10: " ++ modeSuffix f)
    | some m => Except.ok (modeBase f, m))
  let grouped := pairs.foldl (fun (acc : List (String × List ℤ)) p =>
    match acc.lookup p.1 with
    | none => acc ++ [(p.1, [p.2])]
    | some l => (acc.filter (fun q => q.1 ≠ p.1)) ++ [(p.1, l ++ [p.2])]) []
  return grouped.map (fun b => (b.1, sortByKey id b.2))

/-- Lines 33-37: parse each group name of the data group to an integer
timestep key; a parse failure is the exception the source raises. -/
def parseEntries (gs : List (String × Item)) : Except String (List (ℤ × Item)) :=
  gs.mapM (fun g =>
    match pyInt (basename g.1) with
    | none => Except.error ("invalid literal for int with base 10: " ++ g.1)
    | some t => Except.ok (t, g.2))

/-- Lines 32-68, the body of the try block of __init__: catalog the
timestep groups, pick the available fields, read the grid metadata from
the first field of the first timestep, precompute the axes, and detect
cylindrical modes.  Any failure is the wrapped exception. -/
def initTry (file : HFile) (field_names : Option (List String))
    (timesteps : List ℤ) : Except String Reader :=
  match file.data with
  | none => .error "KeyError: data"
  | some gs =>
    match parseEntries gs with
    | .error e => .error e
    | .ok entries =>
      match sortByKey Prod.fst (dedupLast entries) with
      | [] => .error "StopIteration"
      | first :: sortedRest =>
        let sorted := first :: sortedRest
        let first_item := first.2
        let available_fields := match field_names with
          | none => first_item.map Prod.fst
          | some fs => fs.filter (fun f => (first_item.lookup f).isSome)
        match available_fields with
        | [] => .error "IndexError: list index out of range"
        | f0 :: _ =>
          match first_item.lookup f0 with
          | none => .error "KeyError"
          | some first_field =>
            let data_shape := first_field.shape
            let offset := first_field.gridGlobalOffset.getD (List.replicate data_shape.length 0)
            let spacing := first_field.gridSpacing.getD (List.replicate data_shape.length 1)
            let axes_coords := computeAxes data_shape offset spacing
            let is_cylindrical := available_fields.any containsModeSep
            match (if is_cylindrical then buildModes available_fields else .ok []) with
            | .error e => .error e
            | .ok modes =>
              .ok ⟨sorted, timesteps, available_fields, data_shape, offset, spacing,
                axes_coords, is_cylindrical, modes, true⟩

/-- Final state of the container handle after construction or close. -/
inductive HandleState where
  | neverOpened
  | opened
  | closed
deriving DecidableEq

/-- Errors of construction: the path does not exist, or the wrapped
initialization failure of lines 70-72. -/
inductive InitError where
  | notFound
  | initFailure (msg : String)
deriving DecidableEq

/-- Result of construction together with the final state of the container
handle (so that resource release is observable). -/
structure InitOutcome where
  result : Except InitError Reader
  handle : HandleState

/-- Lines 22-72, FastFieldReader.__init__: check existence, open the
container, compute timesteps (which swallows its own errors), then run the
try block; on failure close the handle and wrap the cause. -/
def initReader (pathExists : Bool) (file : HFile)
    (field_names : Option (List String)) : InitOutcome :=
  if pathExists = false then ⟨.error .notFound, .neverOpened⟩
  else
    let timesteps := get_timesteps file
    match initTry file field_names timesteps with
    | .ok r => ⟨.ok r, .opened⟩
    | .error msg =>
      ⟨.error (.initFailure ("Error initializing FastFieldReader: " ++ msg)), .closed⟩

/-- The h5py file close call, modelled strictly: closing an already
released handle is an error, so the guard of FastFieldReader.close is what
must prevent a double release. -/
def h5pyFileClose (isOpen : Bool) : Except String Bool :=
  if isOpen then .ok false else .error "file is already closed"

/-- Lines 80-82, FastFieldReader.close: release the handle only when the
attribute exists and the file object is truthy (h5py file objects are
falsy once closed). -/
def readerClose (r : Reader) : Except String Reader :=
  if r.handleOpen then
    match h5pyFileClose r.handleOpen with
    | .ok b => .ok { r with handleOpen := b }
    | .error e => .error e
  else .ok r

/-- Shape of a successful result, for observing which dataset a call read. -/
def resultShape : Except FieldError FieldResult → Option (List ℕ)
  | .ok fr => some fr.shape
  | .error _ => none

/-- Value of a successful result at an output index (an arbitrary default
on errors), for observing the contents of a returned buffer. -/
def valAt (e : Except FieldError FieldResult) (out : List ℤ) : ℝ :=
  match e with
  | .ok fr => fr.vals out
  | .error _ => 0

/-- Number of indices selected by a Python slice (start a, stop b, step s)
with positive step, before extent clamping: the count of k with
a + k * s < b. -/
def sliceCount (a b s : ℤ) : ℕ := ((b - a + s - 1) / s).toNat

/-- The on-disk indices selected by a Python slice (start a, stop b, step
s) with positive step and in-range bounds: a, a + s, a + 2s, ... below b. -/
def sliceElems (a b s : ℤ) : List ℤ :=
  (List.range (sliceCount a b s)).map (fun (k : ℕ) => a + (k : ℤ) * s)

/-- The selection get_field_at_time builds for a two-dimensional field when
the caller supplies no spatial entries: a full default slice per dimension. -/
def fullSel2 : List SelEntry := [.slc none none none, .slc none none none]

/-- The contribution of a single mode to the reconstruction loop of lines
153-184: zero when the mode dataset is absent, otherwise the cosine-weighted
real strided read plus, for positive modes, the sine-weighted imaginary
strided read. -/
def modeContrib (trig : Trig) (θ : ℝ) (item : Item) (field : String)
    (sel : List SelEntry) (out : List ℤ) (m : ℤ) : ℝ :=
  match item.lookup (modeName field m) with
  | none => 0
  | some dm =>
    trig.cos ((m : ℝ) * θ) * read_direct dm (transformSel realTransformEntry sel) out
      + (if 0 < m then
          trig.sin ((m : ℝ) * θ) * read_direct dm (transformSel imagTransformEntry sel) out
        else 0)

/-- A trivial trigonometric instance for claims whose code path never
evaluates cosine or sine. -/
def idTrig : Trig := ⟨fun x => x, fun x => x⟩

/-! Concrete containers and readers used by witnesses and
counterexamples. -/

/-- A simple 64-element dataset holding constant zero. -/
def ds64 : Dataset := ⟨[64], fun _ => 0, none, none⟩

/-- A simple 32-element dataset holding constant one. -/
def ds32 : Dataset := ⟨[32], fun _ => 1, none, none⟩

/-- Reader with stored timesteps 0, 100, 250 and a simple field f of shape
(64,), as in the end-to-end timestep resolution example. -/
def nearReader : Reader :=
  ⟨[(0, [("f", ds64)]), (100, [("f", ds64)]), (250, [("f", ds64)])],
    [0, 100, 250], ["f"], [64], [0], [1], [], false, [], true⟩

/-- Reader with stored timesteps 0 and 361 and a simple field f whose two
snapshots have distinguishable shapes, used to exhibit the truncation of a
non-integer requested timestep before nearest resolution. -/
def truncReader : Reader :=
  ⟨[(0, [("f", ds64)]), (361, [("f", ds32)])],
    [0, 361], ["f"], [64], [0], [1], [], false, [], true⟩

/-- Mode-0 dataset of an interleaved cylindrical field: shape (1, 2), value
one exactly at index (0, 1) and zero elsewhere. -/
def dsTheta : Dataset := ⟨[1, 2], fun idx => if idx = [0, 1] then 1 else 0, none, none⟩

/-- Cylindrical reader with the single mode 0 for base field F, used to
compare the angle and no-angle paths. -/
def thetaReader : Reader :=
  ⟨[(0, [("F_mode_0", dsTheta)])], [0], ["F_mode_0"], [1, 1], [0, 0], [1, 1],
    [], true, [("F", [0])], true⟩

/-- Interleaved mode datasets for the three-mode reconstruction example:
mode 0 constant two, mode 1 equal to three on odd second indices (the
imaginary positions) and seven on even ones, mode 2 constant five. -/
def dsModeA : Dataset := ⟨[1, 6], fun _ => 2, none, none⟩

/-- Mode-1 dataset: three at odd (imaginary) second indices, seven at even
(real) ones. -/
def dsModeB : Dataset := ⟨[1, 6], fun idx => if idx.getD 1 0 % 2 = 1 then 3 else 7, none, none⟩

/-- Mode-2 dataset: constant five. -/
def dsModeC : Dataset := ⟨[1, 6], fun _ => 5, none, none⟩

/-- Cylindrical reader with modes 0, 1, 2 for base field F. -/
def cylReader : Reader :=
  ⟨[(0, [("F_mode_0", dsModeA), ("F_mode_1", dsModeB), ("F_mode_2", dsModeC)])],
    [0], ["F_mode_0", "F_mode_1", "F_mode_2"], [1, 3], [0, 0], [1, 1],
    [], true, [("F", [0, 1, 2])], true⟩

/-- Reader with one plain field Ex, used for the unknown-field claim. -/
def plainReader : Reader :=
  ⟨[(5, [("Ex", ds64)])], [5], ["Ex"], [64], [0], [1], [], false, [], true⟩

/-- Reader with metadata only, used for the axes claim: shape (3,), offset
10, spacing 2. -/
def axesReader : Reader :=
  ⟨[(0, [])], [0], [], [3], [10], [2], [], false, [], true⟩

/-- A well-formed single-timestep container whose only field is Ex. -/
def okFile : HFile := ⟨some [("0000000000", [("Ex", ds64)])]⟩

/-- A container whose data group has a non-numeric child name, making
timestep-id parsing fail. -/
def badNameFile : HFile := ⟨some [("abc", [("Ex", ds64)])]⟩

/-! Helper lemmas. -/

/-- Doubling numerator offsets and the divisor preserves the ceiling
division count used by slice arithmetic. -/
lemma ediv_double (d s : ℤ) (hs : 0 < s) :
    (2 * d + (2 * s - 1)) / (2 * s) = (d + (s - 1)) / s := by
  have hsne : s ≠ 0 := ne_of_gt hs
  have h2s : (2 * s) ≠ 0 := by omega
  have hmod := Int.ediv_add_emod (d + (s - 1)) s
  have hr0 : 0 ≤ (d + (s - 1)) % s := Int.emod_nonneg _ hsne
  have hrs : (d + (s - 1)) % s < s := Int.emod_lt_of_pos _ hs
  have key : 2 * d + (2 * s - 1)
      = (2 * ((d + (s - 1)) % s) + 1) + ((d + (s - 1)) / s) * (2 * s) := by
    linear_combination (-2 : ℤ) * hmod
  rw [key, Int.add_mul_ediv_right _ _ h2s,
    Int.ediv_eq_zero_of_lt (by omega) (by omega), zero_add]

/-- The doubled real-branch slice selects as many elements as the original
slice. -/
lemma sliceCount_real (a b s : ℤ) (hs : 0 < s) :
    sliceCount (a * 2) (b * 2) (s * 2) = sliceCount a b s := by
  unfold sliceCount
  rw [show b * 2 - a * 2 + s * 2 - 1 = 2 * (b - a) + (2 * s - 1) by ring,
    show s * 2 = 2 * s by ring, ediv_double (b - a) s hs,
    show b - a + (s - 1) = b - a + s - 1 by ring]

/-- The doubled-plus-one imaginary-branch slice selects as many elements as
the original slice. -/
lemma sliceCount_imag (a b s : ℤ) (hs : 0 < s) :
    sliceCount (a * 2 + 1) (b * 2 + 1) (s * 2) = sliceCount a b s := by
  unfold sliceCount
  rw [show b * 2 + 1 - (a * 2 + 1) + s * 2 - 1 = 2 * (b - a) + (2 * s - 1) by ring,
    show s * 2 = 2 * s by ring, ediv_double (b - a) s hs,
    show b - a + (s - 1) = b - a + s - 1 by ring]

/-- The real branch reads exactly the doubled indices of the caller slice. -/
lemma sliceElems_real (a b s : ℤ) (hs : 0 < s) :
    sliceElems (a * 2) (b * 2) (s * 2) = (sliceElems a b s).map (fun x => x * 2) := by
  unfold sliceElems
  rw [sliceCount_real a b s hs, List.map_map]
  congr 1
  funext k
  simp only [Function.comp_apply]
  ring

/-- The imaginary branch reads exactly the doubled-plus-one indices of the
caller slice. -/
lemma sliceElems_imag (a b s : ℤ) (hs : 0 < s) :
    sliceElems (a * 2 + 1) (b * 2 + 1) (s * 2) = (sliceElems a b s).map (fun x => x * 2 + 1) := by
  unfold sliceElems
  rw [sliceCount_imag a b s hs, List.map_map]
  congr 1
  funext k
  simp only [Function.comp_apply]
  ring

/-- The ceiling of a natural number minus one half is that number. -/
lemma ceil_sub_half (n : ℕ) : ⌈(n : ℚ) - 1 / 2⌉ = n := by
  rw [Int.ceil_eq_iff]
  constructor
  · push_cast
    linarith
  · push_cast
    linarith

/-- The argmin fold over an ascending list returns a member of minimal
absolute distance, and on distance ties returns the smallest member. -/
lemma argminFold_spec (t : ℤ) : ∀ (ks : List ℤ) (b : ℤ), (b :: ks).Sorted (· ≤ ·) →
    argminFold t b ks ∈ b :: ks ∧
      ∀ x ∈ b :: ks, |argminFold t b ks - t| ≤ |x - t| ∧
        (|x - t| = |argminFold t b ks - t| → argminFold t b ks ≤ x) := by
  intro ks
  induction ks with
  | nil =>
    intro b _
    refine ⟨by simp [argminFold], ?_⟩
    intro x hx
    simp only [List.mem_singleton] at hx
    subst hx
    exact ⟨le_refl _, fun _ => le_refl _⟩
  | cons k ks ih =>
    intro b hsorted
    rw [List.sorted_cons] at hsorted
    obtain ⟨hble, hks⟩ := hsorted
    have hks2 := hks
    rw [List.sorted_cons] at hks2
    obtain ⟨hkle, hks3⟩ := hks2
    have hfold : argminFold t b (k :: ks)
        = argminFold t (if |k - t| < |b - t| then k else b) ks := rfl
    by_cases hlt : |k - t| < |b - t|
    · obtain ⟨hmem, hmin⟩ := ih k hks
      rw [hfold, if_pos hlt]
      refine ⟨List.mem_cons_of_mem b hmem, ?_⟩
      intro x hx
      rcases List.mem_cons.mp hx with hxb | hxk
      · subst hxb
        have h1 : |argminFold t k ks - t| ≤ |k - t| := (hmin k (List.mem_cons_self k ks)).1
        refine ⟨le_trans h1 (le_of_lt hlt), ?_⟩
        intro heq
        exfalso
        have h2 : |argminFold t k ks - t| < |x - t| := lt_of_le_of_lt h1 hlt
        rw [heq] at h2
        exact lt_irrefl _ h2
      · exact hmin x hxk
    · have hble2 : ∀ x ∈ ks, b ≤ x := fun x hx => hble x (List.mem_cons_of_mem k hx)
      have hsorted2 : (b :: ks).Sorted (· ≤ ·) := List.sorted_cons.mpr ⟨hble2, hks3⟩
      obtain ⟨hmem, hmin⟩ := ih b hsorted2
      rw [hfold, if_neg hlt]
      push_neg at hlt
      constructor
      · rcases List.mem_cons.mp hmem with h | h
        · rw [h]
          exact List.mem_cons_self b (k :: ks)
        · exact List.mem_cons_of_mem b (List.mem_cons_of_mem k h)
      · intro x hx
        rcases List.mem_cons.mp hx with hxb | hxk
        · subst hxb
          exact hmin x (List.mem_cons_self x ks)
        · rcases List.mem_cons.mp hxk with hxk2 | hxks
          · subst hxk2
            have h1 : |argminFold t b ks - t| ≤ |b - t| := (hmin b (List.mem_cons_self b ks)).1
            refine ⟨le_trans h1 hlt, ?_⟩
            intro heq
            have heqb : |b - t| = |argminFold t b ks - t| :=
              le_antisymm (le_trans hlt (le_of_eq heq)) h1
            have hrb : argminFold t b ks ≤ b := (hmin b (List.mem_cons_self b ks)).2 heqb
            exact le_trans hrb (hble x (List.mem_cons_self x ks))
          · exact hmin x (List.mem_cons_of_mem b hxks)

/-! Claim theorems. -/

/-- C2: for a caller slice with start a, stop b and stride s > 0 on the
interleaved second dimension, the composed real-branch selection is the
slice (2a, 2b, 2s), reading exactly the doubled indices of the caller
slice, and the composed imaginary-branch selection is the slice
(2a+1, 2b+1, 2s), reading exactly the doubled-plus-one indices. -/
theorem C2_interleaved_stride_composition :
    ∀ (s0 : SelEntry) (a b s : ℤ), 0 < s →
      (transformSel realTransformEntry [s0, .slc (some a) (some b) (some s)]
          = [s0, .slc (some (a * 2)) (some (b * 2)) (some (s * 2))]
        ∧ sliceElems (a * 2) (b * 2) (s * 2) = (sliceElems a b s).map (fun x => x * 2))
      ∧ (transformSel imagTransformEntry [s0, .slc (some a) (some b) (some s)]
          = [s0, .slc (some (a * 2 + 1)) (some (b * 2 + 1)) (some (s * 2))]
        ∧ sliceElems (a * 2 + 1) (b * 2 + 1) (s * 2)
            = (sliceElems a b s).map (fun x => x * 2 + 1)) := by
  intro s0 a b s hs
  refine ⟨⟨?_, sliceElems_real a b s hs⟩, ?_, sliceElems_imag a b s hs⟩
  · simp [transformSel, realTransformEntry, pyOr1, hs.ne']
  · simp [transformSel, imagTransformEntry, pyOr1, pyOr0, hs.ne']

/-- Witness for C2 at the caller slice (1, 7, 2): the imaginary branch
becomes the slice (3, 15, 4) and reads exactly indices 3, 7, 11. -/
theorem C2_interleaved_stride_composition_witness :
    (0 : ℤ) < 2 ∧
      transformSel imagTransformEntry
          [SelEntry.slc none none none, SelEntry.slc (some 1) (some 7) (some 2)]
        = [SelEntry.slc none none none, SelEntry.slc (some 3) (some 15) (some 4)] ∧
      sliceElems 3 15 4 = [3, 7, 11] := by
  have h := (C2_interleaved_stride_composition (.slc none none none) 1 7 2 (by norm_num)).2
  refine ⟨by norm_num, ?_, ?_⟩
  · have h1 := h.1
    norm_num at h1
    exact h1
  · have h2 := h.2
    norm_num at h2
    rw [h2]
    decide

/-- C5: for every dimension d with positive spacing, the axis array built
by get_axes has length shape d and its entry i equals
offset d + i times spacing d, computed from the cached metadata. -/
theorem C5_axes (r : Reader) (d i : ℕ)
    (hd : d < r.data_shape.length)
    (hs : 0 < r.spacing.getD d 0)
    (hi : i < r.data_shape.getD d 0) :
    ((get_axes r).getD d []).length = r.data_shape.getD d 0 ∧
      ((get_axes r).getD d []).getD i 0
        = r.offset.getD d 0 + (i : ℚ) * r.spacing.getD d 0 := by
  have hcount : Int.toNat ⌈(r.offset.getD d 0
        + ((r.data_shape.getD d 0 : ℚ) - 1 / 2) * r.spacing.getD d 0
        - r.offset.getD d 0) / r.spacing.getD d 0⌉ = r.data_shape.getD d 0 := by
    rw [show r.offset.getD d 0
        + ((r.data_shape.getD d 0 : ℚ) - 1 / 2) * r.spacing.getD d 0
        - r.offset.getD d 0
        = ((r.data_shape.getD d 0 : ℚ) - 1 / 2) * r.spacing.getD d 0 by ring,
      mul_div_cancel_right₀ _ hs.ne', ceil_sub_half]
    exact Int.toNat_natCast _
  have hax : (get_axes r).getD d []
      = pyArange (r.offset.getD d 0)
          (r.offset.getD d 0
            + ((r.data_shape.getD d 0 : ℚ) - 1 / 2) * r.spacing.getD d 0)
          (r.spacing.getD d 0) := by
    unfold get_axes computeAxes
    rw [List.getD_eq_getElem _ _ (by
      rw [List.length_map, List.length_range]
      exact hd)]
    rw [List.getElem_map, List.getElem_range]
  constructor
  · rw [hax]
    unfold pyArange
    rw [List.length_map, List.length_range, hcount]
  · rw [hax]
    unfold pyArange
    rw [hcount]
    rw [List.getD_eq_getElem _ _ (by
      rw [List.length_map, List.length_range]
      exact hi)]
    rw [List.getElem_map, List.getElem_range]

/-- Witness for C5 on a reader with shape (3,), offset 10, spacing 2:
the axis has length 3 and entry 2 equals 14. -/
theorem C5_axes_witness :
    ((get_axes axesReader).getD 0 []).length = 3 ∧
      ((get_axes axesReader).getD 0 []).getD 2 0 = 14 := by
  have h := C5_axes axesReader 0 2
    (by rw [show axesReader.data_shape = [3] from rfl]; norm_num)
    (by rw [show axesReader.spacing.getD 0 0 = 2 from rfl]; norm_num)
    (by rw [show axesReader.data_shape.getD 0 0 = 3 from rfl]; norm_num)
  constructor
  · rw [h.1, show axesReader.data_shape.getD 0 0 = 3 from rfl]
  · rw [h.2, show axesReader.offset.getD 0 0 = 10 from rfl,
      show axesReader.spacing.getD 0 0 = 2 from rfl]
    norm_num

/-- C7: get_field_at_time fails with InvalidTimestep exactly when the
requested timestep is not numerically interpretable; the error is produced
before any timestep resolution or read (the outcome does not depend on the
reader at all), and a numerically interpretable timestep never produces
InvalidTimestep. -/
theorem C7_invalid_timestep :
    (∀ (trig : Trig) (r : Reader) (field : String) (subset : Option Subset),
      get_field_at_time trig r field .invalid subset = .error .invalidTimestep)
    ∧ (∀ (trig : Trig) (r : Reader) (field : String) (q : ℚ) (subset : Option Subset),
      get_field_at_time trig r field (.num q) subset ≠ .error .invalidTimestep) := by
  constructor
  · intro trig r field subset
    rfl
  · intro trig r field q subset h
    unfold get_field_at_time at h
    simp only [parseTimestep] at h
    repeat' split at h
    all_goals simp at h

/-- C8: construction fails with NotFound when the path does not exist (the
container is never opened), and whenever the result is an
InitializationFailure the container handle has been closed before the
error propagates. -/
theorem C8_open_failure_release :
    (∀ (file : HFile) (fns : Option (List String)),
      initReader false file fns = ⟨.error .notFound, .neverOpened⟩)
    ∧ (∀ (file : HFile) (fns : Option (List String)) (msg : String),
      (initReader true file fns).result = .error (.initFailure msg) →
        (initReader true file fns).handle = .closed) := by
  constructor
  · intro file fns
    rfl
  · intro file fns msg h
    unfold initReader at h ⊢
    rw [if_neg (by simp)] at h ⊢
    dsimp only at h ⊢
    cases hin : initTry file fns (get_timesteps file) with
    | ok r => rw [hin] at h; simp at h
    | error m => rfl

/-- Witness for C8: a container whose data group holds the non-numeric
child name abc fails initialization with the handle closed. -/
theorem C8_open_failure_release_witness :
    (initReader true badNameFile none).handle = .closed :=
  C8_open_failure_release.2 badNameFile none
    "Error initializing FastFieldReader: invalid literal for int with base 10: abc" rfl

/-- C9: closing a reader a second time after the handle has been released
does not raise (the strictly modelled underlying close is never reached
through the guard) and returns the same state. -/
theorem C9_double_close (r : Reader) :
    ∃ r2, readerClose r = .ok r2 ∧ readerClose r2 = .ok r2 := by
  cases hr : r.handleOpen with
  | true =>
    refine ⟨{ r with handleOpen := false }, ?_, ?_⟩
    · simp [readerClose, h5pyFileClose, hr]
    · simp [readerClose]
  | false =>
    refine ⟨r, ?_, ?_⟩
    · simp [readerClose, hr]
    · simp [readerClose, hr]

/-- C10: when the container is well formed but the caller field-name filter
matches nothing in the first timestep, construction fails with an
InitializationFailure (wrapping the index error on the empty field list)
and the handle is closed. -/
theorem C10_empty_filter_init_failure (file : HFile) (gs : List (String × Item))
    (entries : List (ℤ × Item)) (t0 : ℤ) (item0 : Item) (rest : List (ℤ × Item))
    (fs : List String)
    (hdata : file.data = some gs)
    (hparse : parseEntries gs = .ok entries)
    (hsorted : sortByKey Prod.fst (dedupLast entries) = (t0, item0) :: rest)
    (hfilter : fs.filter (fun f => (item0.lookup f).isSome) = []) :
    (initReader true file (some fs)).result
        = .error (.initFailure
            "Error initializing FastFieldReader: IndexError: list index out of range")
      ∧ (initReader true file (some fs)).handle = .closed := by
  have htry : initTry file (some fs) (get_timesteps file)
      = .error "IndexError: list index out of range" := by
    unfold initTry
    rw [hdata]
    simp only [hparse, hsorted, hfilter]
  have houtcome : initReader true file (some fs)
      = ⟨.error (.initFailure
          "Error initializing FastFieldReader: IndexError: list index out of range"),
        .closed⟩ := by
    unfold initReader
    rw [if_neg (by simp)]
    dsimp only
    rw [htry]
    rfl
  rw [houtcome]
  exact ⟨rfl, rfl⟩

/-- Witness for C10: a well-formed single-timestep container opened with
the filter Ghost, which matches no stored field. -/
theorem C10_empty_filter_init_failure_witness :
    (initReader true okFile (some ["Ghost"])).result
        = .error (.initFailure
            "Error initializing FastFieldReader: IndexError: list index out of range")
      ∧ (initReader true okFile (some ["Ghost"])).handle = .closed :=
  C10_empty_filter_init_failure okFile [("0000000000", [("Ex", ds64)])]
    [(0, [("Ex", ds64)])] 0 [("Ex", ds64)] [] ["Ghost"] rfl rfl rfl rfl

/-- C4 counterexample: the numerically convertible requested timestep
903/5 = 180.6 is not a stored id of a reader holding timesteps 0 and 361;
the code truncates it to 180 and resolves to the stored id 0 (reading the
shape-64 snapshot stored at timestep 0), although 361 is strictly closer
to the request, refuting minimality of the absolute difference to the
request. -/
theorem C4_truncation_counterexample :
    pyTrunc (903 / 5 : ℚ) = 180
      ∧ truncReader.data_items.lookup (pyTrunc (903 / 5 : ℚ)) = none
      ∧ resolveTimestep truncReader (pyTrunc (903 / 5 : ℚ)) = some 0
      ∧ resultShape (get_field_at_time idTrig truncReader "f" (.num (903 / 5)) none)
          = some [64]
      ∧ |(361 : ℚ) - 903 / 5| < |(0 : ℚ) - 903 / 5| := by
  have htr : pyTrunc (903 / 5 : ℚ) = 180 := by
    unfold pyTrunc
    rw [if_pos (by norm_num)]
    norm_num [Int.floor_eq_iff]
  refine ⟨htr, ?_, ?_, ?_, ?_⟩
  · rw [htr]
    rfl
  · rw [htr]
    rfl
  · unfold get_field_at_time
    rw [show parseTimestep (.num (903 / 5 : ℚ)) = some 180 by
      simp only [parseTimestep, htr]]
    rfl
  · rw [abs_of_nonneg (by norm_num : (0 : ℚ) ≤ (361 : ℚ) - 903 / 5),
      abs_of_nonpos (by norm_num : ((0 : ℚ) - 903 / 5) ≤ 0)]
    norm_num

/-- C4 amended: the requested timestep is first truncated toward zero to an
integer; when that integer is not a stored id and the stored ids are
ascending, resolution returns the stored id of minimal absolute distance
to the truncated value, with ties broken toward the smaller id. -/
theorem C4_nearest_after_truncation (r : Reader) (q : ℚ)
    (hnot : r.data_items.lookup (pyTrunc q) = none)
    (hsorted : (r.data_items.map Prod.fst).Sorted (· ≤ ·))
    (hne : r.data_items.map Prod.fst ≠ []) :
    ∃ k, resolveTimestep r (pyTrunc q) = some k
      ∧ k ∈ r.data_items.map Prod.fst
      ∧ (∀ x ∈ r.data_items.map Prod.fst, |k - pyTrunc q| ≤ |x - pyTrunc q|)
      ∧ (∀ x ∈ r.data_items.map Prod.fst,
          |x - pyTrunc q| = |k - pyTrunc q| → k ≤ x) := by
  unfold resolveTimestep
  rw [hnot]
  simp only [Option.isSome_none, Bool.false_eq_true, if_false]
  cases hkeys : r.data_items.map Prod.fst with
  | nil => exact absurd hkeys hne
  | cons k0 ks =>
    rw [hkeys] at hsorted
    obtain ⟨hmem, hmin⟩ := argminFold_spec (pyTrunc q) ks k0 hsorted
    exact ⟨argminFold (pyTrunc q) k0 ks, rfl, hmem,
      fun x hx => (hmin x hx).1, fun x hx => (hmin x hx).2⟩

/-- Witness for C4: on the stored timesteps 0, 100, 250, the request 180 is
truncation-invariant and resolves to 250, the unique id of minimal
distance. -/
theorem C4_nearest_after_truncation_witness :
    (∃ k, resolveTimestep nearReader (pyTrunc 180) = some k
        ∧ k ∈ nearReader.data_items.map Prod.fst
        ∧ (∀ x ∈ nearReader.data_items.map Prod.fst, |k - pyTrunc 180| ≤ |x - pyTrunc 180|)
        ∧ (∀ x ∈ nearReader.data_items.map Prod.fst,
            |x - pyTrunc 180| = |k - pyTrunc 180| → k ≤ x))
      ∧ resolveTimestep nearReader 180 = some 250 := by
  have htr : pyTrunc (180 : ℚ) = 180 := by
    unfold pyTrunc
    rw [if_pos (by norm_num)]
    norm_num [Int.floor_eq_iff]
  constructor
  · exact C4_nearest_after_truncation nearReader 180 (by rw [htr]; rfl)
      (by rw [show nearReader.data_items.map Prod.fst = [0, 100, 250] from rfl]
          decide)
      (by rw [show nearReader.data_items.map Prod.fst = [0, 100, 250] from rfl]
          decide)
  · rfl

/-- C6: when the field name matches neither a dataset of the resolved
timestep group nor a known mode group, get_field_at_time fails with
FieldNotFound, and (the reader being unchanged by the call) a subsequent
call on the same reader with any field present in the group still
succeeds. -/
theorem C6_unknown_field (trig : Trig) (r : Reader) (f : String) (ti : TimeInput)
    (t0 tv : ℤ) (item : Item) (subset : Option Subset)
    (hpt : parseTimestep ti = some t0)
    (hrt : resolveTimestep r t0 = some tv)
    (hlk : r.data_items.lookup tv = some item)
    (hfield : item.lookup f = none)
    (hmode : r.is_cylindrical = false ∨ r.modes.lookup f = none) :
    get_field_at_time trig r f ti subset = .error (.fieldNotFound f)
      ∧ ∀ (f2 : String) (ds2 : Dataset) (subset2 : Option Subset),
          item.lookup f2 = some ds2 →
          ∃ res, get_field_at_time trig r f2 ti subset2 = .ok res := by
  constructor
  · unfold get_field_at_time
    simp only [hpt, hrt, hlk, hfield]
    rcases hmode with hc | hm
    · rw [hc]
      simp
    · cases hc : r.is_cylindrical with
      | false => simp
      | true => simp [hm]
  · intro f2 ds2 subset2 hf2
    cases hres : get_field_at_time trig r f2 ti subset2 with
    | ok res => exact ⟨res, rfl⟩
    | error e =>
      exfalso
      unfold get_field_at_time at hres
      simp only [hpt, hrt, hlk, hf2] at hres
      simp at hres

/-- Witness for C6: the unknown field Ghost fails with FieldNotFound on a
reader holding Ex, and the subsequent read of Ex on the same reader
succeeds. -/
theorem C6_unknown_field_witness :
    get_field_at_time idTrig plainReader "Ghost" (.num 5) none
        = .error (.fieldNotFound "Ghost")
      ∧ ∃ res, get_field_at_time idTrig plainReader "Ex" (.num 5) none = .ok res := by
  have hpt : parseTimestep (.num 5) = some 5 := by
    simp only [parseTimestep]
    unfold pyTrunc
    rw [if_pos (by norm_num)]
    norm_num [Int.floor_eq_iff]
  have h := C6_unknown_field idTrig plainReader "Ghost" (.num 5) 5 5
    [("Ex", ds64)] none hpt rfl rfl rfl (Or.inl rfl)
  exact ⟨h.1, h.2 "Ex" ds64 none rfl⟩

/-- Accumulating the per-mode loop body over a mode list equals the start
value plus the sum of the individual mode contributions. -/
lemma foldl_modeStep (trig : Trig) (θ : ℝ) (item : Item) (field : String)
    (sel : List SelEntry) :
    ∀ (ms : List ℤ) (acc : List ℤ → ℝ) (out : List ℤ),
      (ms.foldl (modeStep trig θ item field sel) acc) out
        = acc out + (ms.map (modeContrib trig θ item field sel out)).sum := by
  intro ms
  induction ms with
  | nil =>
    intro acc out
    simp
  | cons m ms ih =>
    intro acc out
    rw [List.foldl_cons, ih]
    have hstep : (modeStep trig θ item field sel acc m) out
        = acc out + modeContrib trig θ item field sel out m := by
      unfold modeStep modeContrib
      cases item.lookup (modeName field m) with
      | none => simp
      | some dm =>
        dsimp only
        by_cases hm : 0 < m
        · rw [if_pos hm, if_pos hm]
          ring
        · rw [if_neg hm, if_neg hm]
          ring
    rw [hstep, List.map_cons, List.sum_cons]
    ring

/-- With no caller spatial entries and a two-dimensional shape, the
selection get_field_at_time builds is the full two-entry default. -/
lemma selection_two (r : Reader) (hdim : r.data_shape.length = 2) :
    (List.range r.data_shape.length).map
        (fun i => ((List.lookup i ([] : List (ℕ × SelEntry))).getD (.slc none none none)))
      = fullSel2 := by
  rw [hdim]
  rfl

/-- The identity full selection reads the on-disk value at the output
index itself. -/
lemma read_full_fullSel (d : Dataset) (i j : ℤ) :
    read_direct d fullSel2 [i, j] = d.vals [i, j] := by
  show d.vals [(none : Option ℤ).getD 0 + i * (none : Option ℤ).getD 1,
    (none : Option ℤ).getD 0 + j * (none : Option ℤ).getD 1] = d.vals [i, j]
  norm_num

/-- Under the real-branch transform of the full selection, the value at
output index (i, j) is the on-disk value at (i, 2j). -/
lemma read_real_fullSel (d : Dataset) (i j : ℤ) :
    read_direct d (transformSel realTransformEntry fullSel2) [i, j]
      = d.vals [i, 2 * j] := by
  show d.vals [(none : Option ℤ).getD 0 + i * (none : Option ℤ).getD 1,
    (none : Option ℤ).getD 0 + j * (some (pyOr1 none * 2) : Option ℤ).getD 1]
      = d.vals [i, 2 * j]
  norm_num [pyOr1, mul_comm]

/-- Under the imaginary-branch transform of the full selection, the value
at output index (i, j) is the on-disk value at (i, 2j + 1). -/
lemma read_imag_fullSel (d : Dataset) (i j : ℤ) :
    read_direct d (transformSel imagTransformEntry fullSel2) [i, j]
      = d.vals [i, 2 * j + 1] := by
  show d.vals [(none : Option ℤ).getD 0 + i * (none : Option ℤ).getD 1,
    (pyOr0 none * 2 + 1) + j * (some (pyOr1 none * 2) : Option ℤ).getD 1]
      = d.vals [i, 2 * j + 1]
  norm_num [pyOr0, pyOr1]
  rw [show (1 : ℤ) + j * 2 = 2 * j + 1 by ring]

/-- The per-mode contribution under the full selection, written with the
explicit even and odd interleaved on-disk indices. -/
lemma modeContrib_eval (trig : Trig) (θ : ℝ) (item : Item) (field : String)
    (m i j : ℤ) :
    modeContrib trig θ item field fullSel2 [i, j] m
      = match item.lookup (modeName field m) with
        | none => 0
        | some dm =>
          trig.cos ((m : ℝ) * θ) * dm.vals [i, 2 * j]
            + (if 0 < m then trig.sin ((m : ℝ) * θ) * dm.vals [i, 2 * j + 1] else 0) := by
  unfold modeContrib
  cases item.lookup (modeName field m) with
  | none => rfl
  | some dm =>
    dsimp only
    rw [read_real_fullSel, read_imag_fullSel]

/-- Evaluation of the angle branch of get_field_at_time (branch C) with no
caller spatial entries: the result buffer takes the sample mode shape and
the value function is the sum of the per-mode contributions. -/
lemma getField_theta_eval (trig : Trig) (r : Reader) (field : String) (ti : TimeInput)
    (θ : ℝ) (t0 tv : ℤ) (item : Item) (m0 : ℤ) (mrest : List ℤ) (sample : Dataset)
    (hpt : parseTimestep ti = some t0)
    (hrt : resolveTimestep r t0 = some tv)
    (hlk : r.data_items.lookup tv = some item)
    (hplain : item.lookup field = none)
    (hcyl : r.is_cylindrical = true)
    (hms : r.modes.lookup field = some (m0 :: mrest))
    (hsample : item.lookup (modeName field m0) = some sample)
    (hdim : r.data_shape.length = 2) :
    get_field_at_time trig r field ti (some ⟨[], some θ⟩)
      = .ok ⟨sample.shape,
          fun out => (((m0 :: mrest)).map (modeContrib trig θ item field fullSel2 out)).sum⟩ := by
  unfold get_field_at_time
  simp only [hpt, hrt, hlk, hplain, hcyl, if_true, hms, hsample]
  rw [selection_two r hdim]
  refine congrArg Except.ok ?_
  refine congrArg (FieldResult.mk sample.shape) ?_
  funext out
  rw [foldl_modeStep]
  simp

/-- Evaluation of the no-angle branch of get_field_at_time (branch B) with
no caller spatial entries: a plain read of the mode-0 dataset under the
unmodified full selection. -/
lemma getField_mode0_eval (trig : Trig) (r : Reader) (field : String) (ti : TimeInput)
    (t0 tv : ℤ) (item : Item) (ms : List ℤ) (d0 : Dataset)
    (hpt : parseTimestep ti = some t0)
    (hrt : resolveTimestep r t0 = some tv)
    (hlk : r.data_items.lookup tv = some item)
    (hplain : item.lookup field = none)
    (hcyl : r.is_cylindrical = true)
    (hms : r.modes.lookup field = some ms)
    (hd0 : item.lookup (modeName field 0) = some d0)
    (hdim : r.data_shape.length = 2) :
    get_field_at_time trig r field ti none = .ok ⟨d0.shape, read_direct d0 fullSel2⟩ := by
  unfold get_field_at_time
  simp only [hpt, hrt, hlk, hplain, hcyl, if_true, hms, hd0]
  rw [selection_two r hdim]

/-- C1: for a mode-decomposed field read with an angle, the result is the
sum over the stored modes of cos(mode times theta) times the mode dataset
at the even interleaved index plus, for every mode greater than zero,
sin(mode times theta) times the mode dataset at the odd interleaved index;
a mode whose dataset is absent contributes nothing and raises no error;
and for modes 0, 1, 2 at theta equal to pi over two the value is
data0 + Im(mode1) - Re(mode2). -/
theorem C1_mode_reconstruction :
    (∀ (trig : Trig) (r : Reader) (field : String) (ti : TimeInput) (θ : ℝ)
        (t0 tv : ℤ) (item : Item) (m0 : ℤ) (mrest : List ℤ) (sample : Dataset),
      parseTimestep ti = some t0 →
      resolveTimestep r t0 = some tv →
      r.data_items.lookup tv = some item →
      item.lookup field = none →
      r.is_cylindrical = true →
      r.modes.lookup field = some (m0 :: mrest) →
      item.lookup (modeName field m0) = some sample →
      r.data_shape.length = 2 →
      resultShape (get_field_at_time trig r field ti (some ⟨[], some θ⟩))
          = some sample.shape
        ∧ ∀ i j : ℤ,
          valAt (get_field_at_time trig r field ti (some ⟨[], some θ⟩)) [i, j]
            = ((m0 :: mrest).map (fun m =>
                match item.lookup (modeName field m) with
                | none => 0
                | some dm =>
                  trig.cos ((m : ℝ) * θ) * dm.vals [i, 2 * j]
                    + (if 0 < m then trig.sin ((m : ℝ) * θ) * dm.vals [i, 2 * j + 1]
                      else 0))).sum)
    ∧ (∀ (r : Reader) (field : String) (ti : TimeInput) (t0 tv : ℤ) (item : Item)
        (d0 d1 d2 : Dataset),
      parseTimestep ti = some t0 →
      resolveTimestep r t0 = some tv →
      r.data_items.lookup tv = some item →
      item.lookup field = none →
      r.is_cylindrical = true →
      r.modes.lookup field = some [0, 1, 2] →
      item.lookup (modeName field 0) = some d0 →
      item.lookup (modeName field 1) = some d1 →
      item.lookup (modeName field 2) = some d2 →
      r.data_shape.length = 2 →
      ∀ i j : ℤ,
        valAt (get_field_at_time ⟨Real.cos, Real.sin⟩ r field ti
            (some ⟨[], some (Real.pi / 2)⟩)) [i, j]
          = d0.vals [i, 2 * j] + d1.vals [i, 2 * j + 1] - d2.vals [i, 2 * j]) := by
  have main : ∀ (trig : Trig) (r : Reader) (field : String) (ti : TimeInput) (θ : ℝ)
      (t0 tv : ℤ) (item : Item) (m0 : ℤ) (mrest : List ℤ) (sample : Dataset),
      parseTimestep ti = some t0 →
      resolveTimestep r t0 = some tv →
      r.data_items.lookup tv = some item →
      item.lookup field = none →
      r.is_cylindrical = true →
      r.modes.lookup field = some (m0 :: mrest) →
      item.lookup (modeName field m0) = some sample →
      r.data_shape.length = 2 →
      resultShape (get_field_at_time trig r field ti (some ⟨[], some θ⟩))
          = some sample.shape
        ∧ ∀ i j : ℤ,
          valAt (get_field_at_time trig r field ti (some ⟨[], some θ⟩)) [i, j]
            = ((m0 :: mrest).map (fun m =>
                match item.lookup (modeName field m) with
                | none => 0
                | some dm =>
                  trig.cos ((m : ℝ) * θ) * dm.vals [i, 2 * j]
                    + (if 0 < m then trig.sin ((m : ℝ) * θ) * dm.vals [i, 2 * j + 1]
                      else 0))).sum := by
    intro trig r field ti θ t0 tv item m0 mrest sample hpt hrt hlk hplain hcyl hms hsample hdim
    have he := getField_theta_eval trig r field ti θ t0 tv item m0 mrest sample
      hpt hrt hlk hplain hcyl hms hsample hdim
    rw [he]
    refine ⟨rfl, ?_⟩
    intro i j
    show ((m0 :: mrest).map (modeContrib trig θ item field fullSel2 [i, j])).sum = _
    congr 1
    apply List.map_congr_left
    intro m _
    exact modeContrib_eval trig θ item field m i j
  refine ⟨main, ?_⟩
  intro r field ti t0 tv item d0 d1 d2 hpt hrt hlk hplain hcyl hms hd0 hd1 hd2 hdim i j
  have h := (main ⟨Real.cos, Real.sin⟩ r field ti (Real.pi / 2) t0 tv item 0 [1, 2] d0
    hpt hrt hlk hplain hcyl hms hd0 hdim).2 i j
  rw [h]
  simp only [List.map_cons, List.map_nil, List.sum_cons, List.sum_nil, hd0, hd1, hd2]
  have hc0 : ((0 : ℤ) : ℝ) * (Real.pi / 2) = 0 := by push_cast; ring
  have hc1 : ((1 : ℤ) : ℝ) * (Real.pi / 2) = Real.pi / 2 := by push_cast; ring
  have hc2 : ((2 : ℤ) : ℝ) * (Real.pi / 2) = Real.pi := by push_cast; ring
  rw [hc0, hc1, hc2, Real.cos_zero, Real.sin_zero, Real.cos_pi_div_two,
    Real.sin_pi_div_two, Real.cos_pi, Real.sin_pi]
  norm_num
  ring

/-- Witness for C1: on the concrete three-mode reader with mode values 2,
3 (imaginary part of mode 1) and 5, the reconstruction at theta equal to
pi over two evaluates to 2 + 3 - 5 = 0 at output index (0, 0). -/
theorem C1_mode_reconstruction_witness :
    valAt (get_field_at_time ⟨Real.cos, Real.sin⟩ cylReader "F" (.num 0)
        (some ⟨[], some (Real.pi / 2)⟩)) [0, 0] = 0 := by
  have hpt : parseTimestep (TimeInput.num 0) = some 0 := by
    simp only [parseTimestep]
    unfold pyTrunc
    rw [if_pos le_rfl, Int.floor_zero]
  have h := (C1_mode_reconstruction.2 cylReader "F" (.num 0) 0 0
    [("F_mode_0", dsModeA), ("F_mode_1", dsModeB), ("F_mode_2", dsModeC)]
    dsModeA dsModeB dsModeC hpt rfl rfl rfl rfl rfl rfl rfl rfl rfl) 0 0
  rw [h]
  norm_num [dsModeA, dsModeB, dsModeC]

/-- C3 counterexample: on a cylindrical reader whose mode-0 dataset is not
constant along the interleaved dimension, get_field_at_time with the angle
selector theta equal to zero differs from get_field_at_time without an
angle selector, because the angle path reads the even interleaved indices
(doubled stride) while the mode-0-only path reads the raw selection. -/
theorem C3_theta_zero_counterexample :
    get_field_at_time ⟨Real.cos, Real.sin⟩ thetaReader "F" (.num 0) (some ⟨[], some 0⟩)
      ≠ get_field_at_time ⟨Real.cos, Real.sin⟩ thetaReader "F" (.num 0) none := by
  have hpt : parseTimestep (TimeInput.num 0) = some 0 := by
    simp only [parseTimestep]
    unfold pyTrunc
    rw [if_pos le_rfl, Int.floor_zero]
  have hL := getField_theta_eval ⟨Real.cos, Real.sin⟩ thetaReader "F" (.num 0) 0 0 0
    [("F_mode_0", dsTheta)] 0 [] dsTheta hpt rfl rfl rfl rfl rfl rfl rfl
  have hR := getField_mode0_eval ⟨Real.cos, Real.sin⟩ thetaReader "F" (.num 0) 0 0
    [("F_mode_0", dsTheta)] [0] dsTheta hpt rfl rfl rfl rfl rfl rfl rfl
  intro h
  rw [hL, hR] at h
  have h2 := congrArg (fun e => valAt e [0, 1]) h
  dsimp only [valAt] at h2
  rw [read_full_fullSel] at h2
  simp only [List.map_cons, List.map_nil, List.sum_cons, List.sum_nil,
    modeContrib_eval,
    show List.lookup (modeName "F" 0) [("F_mode_0", dsTheta)] = some dsTheta from rfl] at h2
  norm_num [dsTheta, Real.cos_zero] at h2

/-- C3 amended: with the angle selector theta equal to zero, the result is
the sum over all stored present modes of that mode dataset read at the
even interleaved (stride-doubled) indices; this coincides with the
no-angle mode-0 raw read only in degenerate cases, not in general. -/
theorem C3_theta_zero_behavior (r : Reader) (field : String) (ti : TimeInput)
    (t0 tv : ℤ) (item : Item) (m0 : ℤ) (mrest : List ℤ) (sample : Dataset)
    (hpt : parseTimestep ti = some t0)
    (hrt : resolveTimestep r t0 = some tv)
    (hlk : r.data_items.lookup tv = some item)
    (hplain : item.lookup field = none)
    (hcyl : r.is_cylindrical = true)
    (hms : r.modes.lookup field = some (m0 :: mrest))
    (hsample : item.lookup (modeName field m0) = some sample)
    (hdim : r.data_shape.length = 2) :
    resultShape (get_field_at_time ⟨Real.cos, Real.sin⟩ r field ti (some ⟨[], some 0⟩))
        = some sample.shape
      ∧ ∀ i j : ℤ,
        valAt (get_field_at_time ⟨Real.cos, Real.sin⟩ r field ti (some ⟨[], some 0⟩)) [i, j]
          = ((m0 :: mrest).map (fun m =>
              match item.lookup (modeName field m) with
              | none => 0
              | some dm => dm.vals [i, 2 * j])).sum := by
  have he := getField_theta_eval ⟨Real.cos, Real.sin⟩ r field ti 0 t0 tv item m0 mrest sample
    hpt hrt hlk hplain hcyl hms hsample hdim
  rw [he]
  refine ⟨rfl, ?_⟩
  intro i j
  show ((m0 :: mrest).map (modeContrib ⟨Real.cos, Real.sin⟩ 0 item field fullSel2 [i, j])).sum = _
  congr 1
  apply List.map_congr_left
  intro m _
  rw [modeContrib_eval]
  cases item.lookup (modeName field m) with
  | none => rfl
  | some dm =>
    dsimp only
    rw [mul_zero, Real.cos_zero, Real.sin_zero, one_mul, zero_mul]
    simp

/-- Witness for C3 amended: on the one-mode reader the theta-zero path
returns the mode-0 dataset sampled at even interleaved indices, giving 0
at output index (0, 1) where the raw dataset holds 1. -/
theorem C3_theta_zero_behavior_witness :
    resultShape (get_field_at_time ⟨Real.cos, Real.sin⟩ thetaReader "F" (.num 0)
        (some ⟨[], some 0⟩)) = some [1, 2]
      ∧ valAt (get_field_at_time ⟨Real.cos, Real.sin⟩ thetaReader "F" (.num 0)
          (some ⟨[], some 0⟩)) [0, 1] = 0 := by
  have hpt : parseTimestep (TimeInput.num 0) = some 0 := by
    simp only [parseTimestep]
    unfold pyTrunc
    rw [if_pos le_rfl, Int.floor_zero]
  have h := C3_theta_zero_behavior thetaReader "F" (.num 0) 0 0
    [("F_mode_0", dsTheta)] 0 [] dsTheta hpt rfl rfl rfl rfl rfl rfl rfl
  refine ⟨h.1, ?_⟩
  have hv := h.2 0 1
  rw [hv]
  simp only [List.map_cons, List.map_nil, List.sum_cons, List.sum_nil,
    show List.lookup (modeName "F" 0) [("F_mode_0", dsTheta)] = some dsTheta from rfl]
  norm_num [dsTheta]

/-- Witness for C7: the invalid timestep input fails with InvalidTimestep
on a concrete reader, and the numeric input 5 never does. -/
theorem C7_invalid_timestep_witness :
    get_field_at_time idTrig plainReader "Ex" .invalid none = .error .invalidTimestep
      ∧ get_field_at_time idTrig plainReader "Ex" (.num 5) none
          ≠ .error .invalidTimestep :=
  ⟨C7_invalid_timestep.1 idTrig plainReader "Ex" none,
    C7_invalid_timestep.2 idTrig plainReader "Ex" 5 none⟩

/-- Witness for C9: double close on a concrete open reader. -/
theorem C9_double_close_witness :
    ∃ r2, readerClose plainReader = .ok r2 ∧ readerClose r2 = .ok r2 :=
  C9_double_close plainReader

end SmileiDiag
